import Mathlib

/-!
Verification development for the OFS plugin core (`src/main.ts` of
`oracle-samples/ofs-plugin-core`).

The TypeScript source is shallowly embedded: JavaScript runtime values are the
inductive `JSVal`; the handlers of `OFSPlugin` become pure step functions over
an explicit `SessionState`; code that can throw a JavaScript `TypeError`
becomes `Except Unit`-valued; observable side effects (persisting a property,
posting a message, invoking an overridable extension point, logging an error)
are collected in an explicit `Event` trace.  Platform primitives
(`JSON.parse`, string splitting, the abstract-equality algorithm of `==`) are
modelled executably below.
-/

/-- JavaScript runtime values: the results of `JSON.parse` extended with
`undefined` (absent properties).  Numbers are modelled as integers: the plugin
protocol only ever inspects method strings, object shapes and small version
numbers, never fractional values. -/
inductive JSVal where
  | undef
  | null
  | bool (b : Bool)
  | num (n : Int)
  | str (s : String)
  | arr (elems : List JSVal)
  | obj (fields : List (String × JSVal))

/-- Association-list update with JavaScript property-write semantics: an
existing key is overwritten in place, a new key is appended (insertion
order preserved, as for JS objects and `localStorage`). -/
def setAssoc (fields : List (String × JSVal)) (key : String) (value : JSVal) :
    List (String × JSVal) :=
  match fields with
  | [] => [(key, value)]
  | (k, v) :: rest =>
    if k == key then (key, value) :: rest else (k, v) :: setAssoc rest key value

/-- Property read on an object's field list; an absent key is `undefined`. -/
def getField (fields : List (String × JSVal)) (key : String) : JSVal :=
  match fields.find? (fun p => p.1 == key) with
  | some p => p.2
  | none => JSVal.undef

/-- The JavaScript `in` operator's key test on an object's own fields. -/
def hasKey (fields : List (String × JSVal)) (key : String) : Bool :=
  fields.any (fun p => p.1 == key)

/-- JavaScript truthiness (`if (v)`): `undefined`, `null`, `false`, `0` and
the empty string are falsy; every object and array is truthy. -/
def truthy : JSVal → Bool
  | JSVal.undef => false
  | JSVal.null => false
  | JSVal.bool b => b
  | JSVal.num n => n != 0
  | JSVal.str s => s != ""
  | JSVal.arr _ => true
  | JSVal.obj _ => true

/-- JavaScript `ToString`, used by `ToPrimitive` during loose equality.  An
array renders its elements joined by commas with `null`/`undefined` elements
empty; a plain object renders as the usual object tag.  Only the outer
shape of the result is ever inspected by the handlers modelled here. -/
def jsToString : JSVal → String
  | JSVal.undef => "undefined"
  | JSVal.null => "null"
  | JSVal.bool b => cond b "true" "false"
  | JSVal.num n => toString n
  | JSVal.str s => s
  | JSVal.obj _ => "[object Object]"
  | JSVal.arr xs =>
    String.intercalate "," (xs.attach.map fun v =>
      match v with
      | ⟨JSVal.null, _⟩ => ""
      | ⟨JSVal.undef, _⟩ => ""
      | ⟨w, hw⟩ => jsToString w)
decreasing_by
  have h := List.sizeOf_lt_of_mem hw
  simp [JSVal.arr.sizeOf_spec]
  omega

/-- JavaScript `ToNumber` on a string, restricted to optionally signed
integer literals (`none` is NaN).  Fractional, exponent and hex forms are
not needed by the protocol model: the only string/number comparisons the
handlers can reach involve correlation identifiers and status words. -/
def jsStrToNumber (s : String) : Option Int :=
  let isWsChar : Char → Bool := fun c => c == ' ' || c == '\t' || c == '\n' || c == '\r'
  let cs := (((s.data.dropWhile isWsChar).reverse.dropWhile isWsChar).reverse)
  let digitsToNat : List Char → Nat := fun ds => ds.foldl (fun a c => a * 10 + (c.toNat - 48)) 0
  match cs with
  | [] => some 0
  | '-' :: ds =>
    if !ds.isEmpty && ds.all (fun c => c.isDigit) then some (-(digitsToNat ds : Int)) else none
  | '+' :: ds =>
    if !ds.isEmpty && ds.all (fun c => c.isDigit) then some ((digitsToNat ds : Int)) else none
  | ds =>
    if ds.all (fun c => c.isDigit) then some ((digitsToNat ds : Int)) else none

/-- First normalization step of JavaScript abstract equality: booleans are
converted with `ToNumber`, objects and arrays with `ToPrimitive` (default
hint, giving `ToString`).  Object-to-object comparisons (reference identity
in JS) do not occur on the modelled code paths: one operand of every `==` in
the source is a string literal, a stored string, `null`, or `undefined`. -/
def primN (v : JSVal) : JSVal :=
  match v with
  | JSVal.bool b => JSVal.num (cond b 1 0)
  | JSVal.arr _ => JSVal.str (jsToString v)
  | JSVal.obj _ => JSVal.str (jsToString v)
  | x => x

/-- Abstract equality on primitives (after `primN`): `null` and `undefined`
equal each other and themselves; same-type comparisons are strict; a
number/string pair compares after `ToNumber` on the string. -/
def eqPrimitive : JSVal → JSVal → Bool
  | JSVal.undef, JSVal.undef => true
  | JSVal.undef, JSVal.null => true
  | JSVal.null, JSVal.undef => true
  | JSVal.null, JSVal.null => true
  | JSVal.num x, JSVal.num y => x == y
  | JSVal.str x, JSVal.str y => x == y
  | JSVal.num x, JSVal.str s =>
    (match jsStrToNumber s with
     | some v => v == x
     | none => false)
  | JSVal.str s, JSVal.num x =>
    (match jsStrToNumber s with
     | some v => v == x
     | none => false)
  | _, _ => false

/-- JavaScript loose equality `==` (and, negated, `!=`) as used by the
source's `callId` comparison, `application.type == "ofs"` and
`applications != null` tests. -/
def eqLoose (a b : JSVal) : Bool :=
  eqPrimitive (primN a) (primN b)

/-- JavaScript property read `v[key]` for the cases that cannot throw:
objects read their fields, arrays and strings expose `length` and index
properties, other primitives box to wrappers without own properties.
Reads on `null`/`undefined` throw and are handled by `propAccess`. -/
def propGet (v : JSVal) (key : String) : JSVal :=
  match v with
  | JSVal.obj fs => getField fs key
  | JSVal.arr xs =>
    if key == "length" then JSVal.num xs.length
    else
      (match key.toNat? with
       | some i => (xs.get? i).getD JSVal.undef
       | none => JSVal.undef)
  | JSVal.str s =>
    if key == "length" then JSVal.num s.length
    else
      (match key.toNat? with
       | some i => ((s.data.get? i).map fun c => JSVal.str (String.singleton c)).getD JSVal.undef
       | none => JSVal.undef)
  | _ => JSVal.undef

/-- JavaScript property access `v.key`: a `TypeError` (modelled as
`Except.error ()`) on `null`/`undefined`, otherwise `propGet`. -/
def propAccess (v : JSVal) (key : String) : Except Unit JSVal :=
  match v with
  | JSVal.null => Except.error ()
  | JSVal.undef => Except.error ()
  | _ => Except.ok (propGet v key)

/-- JavaScript `key in v`: a `TypeError` on any non-object operand,
membership of own keys on objects, index/length membership on arrays. -/
def jsInOp (key : String) (v : JSVal) : Except Unit Bool :=
  match v with
  | JSVal.obj fs => Except.ok (hasKey fs key)
  | JSVal.arr xs =>
    Except.ok (key == "length" ||
      (match key.toNat? with
       | some i => decide (i < xs.length)
       | none => false))
  | _ => Except.error ()

/-- `Object.entries`: a `TypeError` on `null`/`undefined`, the own fields of
an object, the indexed elements of an array or string, and nothing for the
remaining primitives. -/
def entriesOfE : JSVal → Except Unit (List (String × JSVal))
  | JSVal.null => Except.error ()
  | JSVal.undef => Except.error ()
  | JSVal.obj fs => Except.ok fs
  | JSVal.arr xs => Except.ok ((xs.enum).map fun p => (toString p.1, p.2))
  | JSVal.str s =>
    Except.ok ((s.data.enum).map fun p => (toString p.1, JSVal.str (String.singleton p.2)))
  | JSVal.bool _ => Except.ok []
  | JSVal.num _ => Except.ok []

/-- Read of the persisted property store (`window.localStorage.getItem`):
an absent key yields `null`, exactly as `getItem` does. -/
def getStore (store : List (String × JSVal)) (key : String) : JSVal :=
  match store.find? (fun p => p.1 == key) with
  | some p => p.2
  | none => JSVal.null

/-- Whitespace skipping for the JSON grammar. -/
def skipJsonWs : List Char → List Char
  | [] => []
  | c :: cs => if c == ' ' || c == '\t' || c == '\n' || c == '\r' then skipJsonWs cs else c :: cs

/-- Hexadecimal digit value for JSON unicode escapes. -/
def hexDigitVal (c : Char) : Option Nat :=
  if c.isDigit then some (c.toNat - 48)
  else if 'a' ≤ c && c ≤ 'f' then some (c.toNat - 87)
  else if 'A' ≤ c && c ≤ 'F' then some (c.toNat - 55)
  else none

/-- Body of a JSON string literal (after the opening quote), with the JSON
escape sequences; control characters are rejected, as in the JSON grammar.
Fuel is at least the remaining input length, so exhaustion is unreachable. -/
def parseJStringBody : Nat → List Char → List Char → Option (String × List Char)
  | 0, _, _ => none
  | _ + 1, acc, [] => none
  | fuel + 1, acc, c :: rest =>
    if c == '"' then some (String.mk acc.reverse, rest)
    else if c == '\\' then
      match rest with
      | 'n' :: r => parseJStringBody fuel ('\n' :: acc) r
      | 't' :: r => parseJStringBody fuel ('\t' :: acc) r
      | 'r' :: r => parseJStringBody fuel ('\r' :: acc) r
      | 'b' :: r => parseJStringBody fuel ('\x08' :: acc) r
      | 'f' :: r => parseJStringBody fuel ('\x0c' :: acc) r
      | '"' :: r => parseJStringBody fuel ('"' :: acc) r
      | '\\' :: r => parseJStringBody fuel ('\\' :: acc) r
      | '/' :: r => parseJStringBody fuel ('/' :: acc) r
      | 'u' :: h1 :: h2 :: h3 :: h4 :: r =>
        (match hexDigitVal h1, hexDigitVal h2, hexDigitVal h3, hexDigitVal h4 with
         | some a, some b, some c2, some d =>
           parseJStringBody fuel (Char.ofNat (((a * 16 + b) * 16 + c2) * 16 + d) :: acc) r
         | _, _, _, _ => none)
      | _ => none
    else if c.toNat < 32 then none
    else parseJStringBody fuel (c :: acc) rest

/-- JSON number literal.  The integer part (with sign) is kept; fraction and
exponent digits are consumed syntactically but do not contribute, since the
protocol model never does numeric arithmetic on parsed payloads. -/
def parseJNumber (cs : List Char) : Option (JSVal × List Char) :=
  let digitsToNat : List Char → Nat := fun ds => ds.foldl (fun a c => a * 10 + (c.toNat - 48)) 0
  let (neg, cs1) :=
    match cs with
    | '-' :: r => (true, r)
    | _ => (false, cs)
  let (ds, cs2) := cs1.span (fun c => c.isDigit)
  if ds.isEmpty then none
  else
    let n : Int := if neg then -(digitsToNat ds : Int) else (digitsToNat ds : Int)
    let afterFrac : Option (List Char) :=
      match cs2 with
      | '.' :: r =>
        let (fs, r2) := r.span (fun c => c.isDigit)
        if fs.isEmpty then none else some r2
      | _ => some cs2
    match afterFrac with
    | none => none
    | some cs3 =>
      match cs3 with
      | 'e' :: r =>
        let r1 := match r with
                  | '+' :: r2 => r2
                  | '-' :: r2 => r2
                  | r2 => r2
        let (es, r3) := r1.span (fun c => c.isDigit)
        if es.isEmpty then none else some (JSVal.num n, r3)
      | 'E' :: r =>
        let r1 := match r with
                  | '+' :: r2 => r2
                  | '-' :: r2 => r2
                  | r2 => r2
        let (es, r3) := r1.span (fun c => c.isDigit)
        if es.isEmpty then none else some (JSVal.num n, r3)
      | _ => some (JSVal.num n, cs3)

/-- Parser mode: a single value, the items of an array after its first
element position, or the members of an object. -/
inductive PMode where
  | value
  | arrItems (acc : List JSVal)
  | objItems (acc : List (String × JSVal))

/-- Recursive-descent JSON parser.  Fuel bounds the recursion depth (it is
chosen larger than the input can ever need at the top entry `jsonParseE`).
Duplicate object keys keep the last value, as `JSON.parse` does. -/
def parseJ : Nat → PMode → List Char → Option (JSVal × List Char)
  | 0, _, _ => none
  | fuel + 1, PMode.value, cs =>
    (match skipJsonWs cs with
     | 'n' :: 'u' :: 'l' :: 'l' :: rest => some (JSVal.null, rest)
     | 't' :: 'r' :: 'u' :: 'e' :: rest => some (JSVal.bool true, rest)
     | 'f' :: 'a' :: 'l' :: 's' :: 'e' :: rest => some (JSVal.bool false, rest)
     | '"' :: rest =>
       (parseJStringBody (rest.length + 1) [] rest).map fun p => (JSVal.str p.1, p.2)
     | '[' :: rest =>
       (match skipJsonWs rest with
        | ']' :: r2 => some (JSVal.arr [], r2)
        | r2 => parseJ fuel (PMode.arrItems []) r2)
     | '\x7b' :: rest =>
       (match skipJsonWs rest with
        | '\x7d' :: r2 => some (JSVal.obj [], r2)
        | r2 => parseJ fuel (PMode.objItems []) r2)
     | cs2 => parseJNumber cs2)
  | fuel + 1, PMode.arrItems acc, cs =>
    (match parseJ fuel PMode.value cs with
     | none => none
     | some (v, rest) =>
       (match skipJsonWs rest with
        | ',' :: r2 => parseJ fuel (PMode.arrItems (v :: acc)) r2
        | ']' :: r2 => some (JSVal.arr (v :: acc).reverse, r2)
        | _ => none))
  | fuel + 1, PMode.objItems acc, cs =>
    (match skipJsonWs cs with
     | '"' :: r1 =>
       (match parseJStringBody (r1.length + 1) [] r1 with
        | none => none
        | some (k, r2) =>
          (match skipJsonWs r2 with
           | ':' :: r3 =>
             (match parseJ fuel PMode.value r3 with
              | none => none
              | some (v, r4) =>
                (match skipJsonWs r4 with
                 | ',' :: r5 => parseJ fuel (PMode.objItems (setAssoc acc k v)) r5
                 | '\x7d' :: r5 => some (JSVal.obj (setAssoc acc k v), r5)
                 | _ => none))
           | _ => none))
     | _ => none)

/-- The platform `JSON.parse`, `Except`-valued: `Except.error ()` models the
thrown `SyntaxError` on malformed input.  Trailing non-whitespace is
rejected, as `JSON.parse` rejects it. -/
def jsonParseE (s : String) : Except Unit JSVal :=
  match parseJ (2 * s.length + 2) PMode.value s.data with
  | some (v, rest) =>
    if (skipJsonWs rest).isEmpty then Except.ok v else Except.error ()
  | none => Except.error ()

/-- Default own fields of `new OFSMessage()`: the initialized class fields
`apiVersion = -1` and `method = "no method"`.  The optional fields
(`securedData`, `sendInitData`, `enableBackButton`, `showHeader`,
`sendMessageAsJsObject`, `dataItems`) have no initializer and therefore
create no own property. -/
def ofsMessageDefaults : List (String × JSVal) :=
  [("apiVersion", JSVal.num (-1)), ("method", JSVal.str "no method")]

/-- Own enumerable string-keyed entries of an `Object.assign` source: the
fields of an object, the index properties of an array or string, nothing
for the remaining primitives and `null` (`Object.assign` ignores them). -/
def ownEnumerableEntries : JSVal → List (String × JSVal)
  | JSVal.obj fs => fs
  | JSVal.arr xs => (xs.enum).map fun p => (toString p.1, p.2)
  | JSVal.str s => (s.data.enum).map fun p => (toString p.1, JSVal.str (String.singleton p.2))
  | _ => []

/-- `Object.assign(target, src)` onto a fresh message object: the source's
own enumerable properties overwrite the defaults in order. -/
def assignFields (base : List (String × JSVal)) (src : JSVal) : List (String × JSVal) :=
  (ownEnumerableEntries src).foldl (fun acc kv => setAssoc acc kv.1 kv.2) base

/-- `OFSMessage.parse(str)`: `Object.assign(new OFSMessage(), JSON.parse(str))`
inside `try`/`catch`, the catch returning `new OFSMessage()`.  The function is
total — the model of "never raises". -/
def OFSMessage.parse (raw : String) : JSVal :=
  match jsonParseE raw with
  | Except.ok j => JSVal.obj (assignFields ofsMessageDefaults j)
  | Except.error _ => JSVal.obj ofsMessageDefaults

/-- The authenticated backend client (class `OFS` of `@ofs-users/proxy`, an
external collaborator): constructed either from inline credentials
(`_createProxy`'s secured-data path) or from a base URL and token
(`_callProcedureResult`'s success path).  Its internals are out of scope. -/
inductive OFS where
  | fromCredentials (ofsInstance ofsClientId ofsClientSecret : JSVal)
  | fromToken (baseURL token : JSVal)

/-- Observable effects of the handlers, in program order: a `localStorage`
write by `storeInitProperty`, an outbound envelope through
`_sendWebMessage`/`sendMessage`, the `console.error` diagnostic of the
token-response failure path, the invocation of the `open` extension point,
and the invocation of the overridable `callProcedureResult` extension point.
The `console.log`/`console.debug` progress diagnostics are not traced. -/
inductive Event where
  | storeProp (key : String) (value : JSVal)
  | emit (message : JSVal)
  | logError (message : String)
  | openInvoked (msgFields : List (String × JSVal))
  | extCallProcedureResult (msgFields : List (String × JSVal))

/-- State shared by every plugin instance of the page: the `declare global`
variables `globalThis.callId` (undefined before the first acquisition) and
`globalThis.waitForProxy`, and `window.localStorage` (keys are namespaced
per instance as `tag.property`). -/
structure Shared where
  callId : JSVal
  waitForProxy : Bool
  store : List (String × JSVal)

/-- Per-instance fields of `OFSPlugin`: the private `_tag` and the private
`_proxy` (absent until an acquisition succeeds). -/
structure Inst where
  tag : String
  proxy : Option OFS

/-- The state one plugin instance sees: its own fields plus the shared
globals. -/
structure SessionState where
  shared : Shared
  inst : Inst

/-- Key namespacing of the persisted property store: `tag + "." + property`. -/
def storageKey (st : SessionState) (property : String) : String :=
  st.inst.tag ++ "." ++ property

/-- `storeInitProperty(property, data)`: writes
`localStorage[tag + "." + property]` and records the write in the trace. -/
def storeInitProperty (st : SessionState) (property : String) (data : JSVal) :
    SessionState × List Event :=
  let key := storageKey st property
  ({ st with shared := { st.shared with store := setAssoc st.shared.store key data } },
   [Event.storeProp key data])

/-- `getInitProperty(property)`: reads `localStorage[tag + "." + property]`
(`null` when absent). -/
def getInitProperty (st : SessionState) (property : String) : JSVal :=
  getStore st.shared.store (storageKey st property)

/-- `sendMessage(method, data)` builds the envelope
`\x7b apiVersion: 1, method, ...data \x7d`: spread fields overwrite the two
base fields on conflict and are appended in order otherwise. -/
def mkSendMessage (method : String) (data : List (String × JSVal)) : JSVal :=
  JSVal.obj (data.foldl (fun acc kv => setAssoc acc kv.1 kv.2)
    [("apiVersion", JSVal.num 1), ("method", JSVal.str method)])

/-- The `callProcedure` envelope `_createProxy` emits to request an access
token: `callId`, `procedure: "getAccessToken"` and the application key. -/
def callProcedureMessage (newId applicationKey : String) : JSVal :=
  mkSendMessage "callProcedure"
    [("callId", JSVal.str newId), ("procedure", JSVal.str "getAccessToken"),
     ("params", JSVal.obj [("applicationKey", JSVal.str applicationKey)])]

/-- `_generateCallId()`: 62 draws of `Math.floor(Math.random() * 62)` indexed
into the fixed alphanumeric alphabet; the entropy stream is supplied
externally.  The handlers below take the generated identifier as a
parameter, since its value is this external randomness. -/
def generateCallId (draws : Nat → Nat) : String :=
  let characters := "ABCDEFGHIJKLMNOPQRSTUVWXYZabcdefghijklmnopqrstuvwxyz0123456789"
  String.mk ((List.range characters.length).map fun i =>
    characters.data.getD (draws i % characters.length) 'A')

/-- Tail of `_createProxy`: the `message.securedData` block.  Mirrors the
short-circuiting `&&` chain; each property access is guarded by the
truthiness of `securedData`, so no access here can actually throw. -/
def securedDataStep (st : SessionState) (msgFields : List (String × JSVal)) :
    Except Unit (SessionState × List Event) :=
  let securedData := getField msgFields "securedData"
  if truthy securedData then do
    let ofsInstanceV ← propAccess securedData "ofsInstance"
    if truthy ofsInstanceV then do
      let ofsClientIdV ← propAccess securedData "ofsClientId"
      if truthy ofsClientIdV then do
        let ofsClientSecretV ← propAccess securedData "ofsClientSecret"
        if truthy ofsClientSecretV then
          let newProxy := some (OFS.fromCredentials ofsInstanceV ofsClientIdV ofsClientSecretV)
          Except.ok ({ st with inst := { st.inst with proxy := newProxy } }, [])
        else Except.ok (st, [])
      else Except.ok (st, [])
    else Except.ok (st, [])
  else Except.ok (st, [])

/-- The `for (const [key, value] of Object.entries(applications))` loop of
`_createProxy`: on the first entry whose `type == "ofs"` it persists the
entry's `resourceUrl` as `baseURL`, records the generated call id in
`globalThis.callId`, emits the `callProcedure` request, sets
`globalThis.waitForProxy` and returns; if no entry matches it falls
through to the secured-data block. -/
def createProxyLoop (st : SessionState) (msgFields : List (String × JSVal)) (newId : String) :
    List (String × JSVal) → Except Unit (SessionState × List Event)
  | [] => securedDataStep st msgFields
  | (applicationKey, application) :: rest => do
    let typeV ← propAccess application "type"
    if eqLoose typeV (JSVal.str "ofs") then do
      let resourceUrlV ← propAccess application "resourceUrl"
      let (st1, ev1) := storeInitProperty st "baseURL" resourceUrlV
      let st2 := { st1 with shared := { st1.shared with callId := JSVal.str newId } }
      let st3 := { st2 with shared := { st2.shared with waitForProxy := true } }
      Except.ok (st3, ev1 ++ [Event.emit (callProcedureMessage newId applicationKey)])
    else
      createProxyLoop st msgFields newId rest

/-- `_createProxy(message)`.  The persisted registry is read back and
iterated; `applications != null` is the loose test of the source.  The
store holds the registry value itself: the `JSON.stringify`/`JSON.parse`
round trip through `localStorage` is modelled as the identity. -/
def createProxy (st : SessionState) (msgFields : List (String × JSVal)) (newId : String) :
    Except Unit (SessionState × List Event) :=
  let applications := getInitProperty st "applications"
  if eqLoose applications JSVal.null then
    securedDataStep st msgFields
  else do
    let entries ← entriesOfE applications
    createProxyLoop st msgFields newId entries

/-- `_storeInitData(message)`: persists the host-declared application
registry when the message carries one (truthiness test, as in the source). -/
def storeInitData (st : SessionState) (msgFields : List (String × JSVal)) :
    SessionState × List Event :=
  let applications := getField msgFields "applications"
  if truthy applications then
    storeInitProperty st "applications" applications
  else (st, [])

/-- The minimal `initEnd` envelope the default `init` extension point
resolves to. -/
def initEndMessage : JSVal :=
  JSVal.obj [("apiVersion", JSVal.num 1), ("method", JSVal.str "initEnd")]

/-- The `init` case of `_getWebMessage`: `_storeInitData` followed by
`_init`, whose default `init` extension point resolves to the minimal
`initEnd` envelope, which is then sent. -/
def handleInitCase (st : SessionState) (msgFields : List (String × JSVal)) :
    SessionState × List Event :=
  let (st1, ev1) := storeInitData st msgFields
  (st1, ev1 ++ [Event.emit initEndMessage])

/-- The `while (globalThis.waitForProxy)` polling loop of the `open` case,
under the premise that no inbound message arrives during the wait (so
nothing else clears the flag).  Arguments are the flag, the `iteration`
counter and the number of 100 ms sleeps performed so far; the result is the
total sleep count and the final flag. -/
def waitLoopAux (wait : Bool) (iteration : Nat) (sleeps : Nat) : Nat × Bool :=
  if wait = false then (sleeps, wait)
  else if iteration + 1 > 30 then (sleeps + 1, false)
  else waitLoopAux wait (iteration + 1) (sleeps + 1)
termination_by 30 - iteration
decreasing_by omega

/-- The `open` case of `_getWebMessage` when no inbound envelope arrives
while it is suspended: clear `waitForProxy`, run `_createProxy`, poll the
flag with the bounded loop, then invoke the `open` extension point.  The
third component is the number of sleeps performed. -/
def handleOpenCase (st : SessionState) (msgFields : List (String × JSVal)) (newId : String) :
    Except Unit (SessionState × List Event × Nat) := do
  let st0 := { st with shared := { st.shared with waitForProxy := false } }
  let (st1, ev1) ← createProxy st0 msgFields newId
  let loopResult := waitLoopAux st1.shared.waitForProxy 0 0
  let st2 := { st1 with shared := { st1.shared with waitForProxy := loopResult.2 } }
  Except.ok (st2, ev1 ++ [Event.openInvoked msgFields], loopResult.1)

/-- `_callProcedureResult(parsed_message)`: the correlation handler.  A
matching `callId` with a well-formed successful `resultData` builds the
proxy from the persisted base URL and the returned token and clears
`waitForProxy`; a matching `callId` with `resultData` absent only logs an
error; a matching `callId` with a present non-success `resultData` does
nothing; a non-matching `callId` is forwarded to the overridable
`callProcedureResult` extension point.  The `"status" in resultData` test
throws on a non-object `resultData`, hence the `Except`. -/
def callProcedureResultStep (st : SessionState) (msgFields : List (String × JSVal)) :
    Except Unit (SessionState × List Event) :=
  if eqLoose (getField msgFields "callId") st.shared.callId then
    let baseURLOFS := getInitProperty st "baseURL"
    if hasKey msgFields "resultData" then do
      let resultData := getField msgFields "resultData"
      let hasStatus ← jsInOp "status" resultData
      if hasStatus then do
        let statusV ← propAccess resultData "status"
        if eqLoose statusV (JSVal.str "success") then do
          let tokenV ← propAccess resultData "token"
          Except.ok ({ st with
            inst := { st.inst with proxy := some (OFS.fromToken baseURLOFS tokenV) },
            shared := { st.shared with waitForProxy := false } }, [])
        else Except.ok (st, [])
      else Except.ok (st, [])
    else
      Except.ok (st, [Event.logError "Problems processing the Token Response"])
  else
    Except.ok (st, [Event.extCallProcedureResult msgFields])

/-- The `ready` envelope built by `setup`.  The source accepts
`sendInitData`, `enableBackButton`, `showHeader`, `sendMessageAsJsObject`
and `dataItems` as parameters but the envelope literal hardcodes
`sendInitData: true` and includes none of the other flags. -/
def setupReadyMessage (sendInitData enableBackButton showHeader sendMessageAsJsObject : Bool)
    (dataItems : Option (List String)) : JSVal :=
  JSVal.obj [("apiVersion", JSVal.num 1), ("method", JSVal.str "ready"),
    ("sendInitData", JSVal.bool true)]

/-- Destinations of the `switch (parsed_message.method)` of
`_getWebMessage`: one route per recognized case, the discard of the
`"no method"` sentinel, and the thrown unknown-method failure of the
`default` case. -/
inductive DispatchAction where
  | routeInitCase
  | routeOpenCase
  | routeUpdateResultCase
  | routeCallProcedureResultCase
  | routeWakeupCase
  | routeErrorCase
  | discardNoMethod
  | raiseUnknownMethod
deriving DecidableEq

/-- The dispatch switch itself: strict string comparison against each case
label in source order; any non-string method value falls to the default. -/
def dispatchAction (method : JSVal) : DispatchAction :=
  match method with
  | JSVal.str t =>
    if t = "init" then DispatchAction.routeInitCase
    else if t = "open" then DispatchAction.routeOpenCase
    else if t = "updateResult" then DispatchAction.routeUpdateResultCase
    else if t = "callProcedureResult" then DispatchAction.routeCallProcedureResultCase
    else if t = "wakeup" then DispatchAction.routeWakeupCase
    else if t = "error" then DispatchAction.routeErrorCase
    else if t = "no method" then DispatchAction.discardNoMethod
    else DispatchAction.raiseUnknownMethod
  | _ => DispatchAction.raiseUnknownMethod

/-- The recognized inbound method tags. -/
def recognizedMethods : List String :=
  ["init", "open", "updateResult", "callProcedureResult", "wakeup", "error"]

/-- The handler route belonging to each recognized method tag. -/
def routeOf (t : String) : DispatchAction :=
  if t = "init" then DispatchAction.routeInitCase
  else if t = "open" then DispatchAction.routeOpenCase
  else if t = "updateResult" then DispatchAction.routeUpdateResultCase
  else if t = "callProcedureResult" then DispatchAction.routeCallProcedureResultCase
  else if t = "wakeup" then DispatchAction.routeWakeupCase
  else if t = "error" then DispatchAction.routeErrorCase
  else DispatchAction.raiseUnknownMethod

/-- Test for an outbound `callProcedure` envelope in the event trace. -/
def isCallProcedureEmit : Event → Bool
  | Event.emit m => eqLoose (propGet m "method") (JSVal.str "callProcedure")
  | _ => false

/-- Two plugin instances living in the same page: they share `globalThis`
and `localStorage` (the `Shared` component) while each owns its `Inst`. -/
structure ProcessState where
  shared : Shared
  instA : Inst
  instB : Inst

/-- Selector for one of the two instances. -/
inductive WhichInst where
  | a
  | b

/-- The session view one instance has of the process: its own fields plus
the shared globals. -/
def sessionOf (p : ProcessState) (w : WhichInst) : SessionState :=
  match w with
  | WhichInst.a => { shared := p.shared, inst := p.instA }
  | WhichInst.b => { shared := p.shared, inst := p.instB }

/-- Writing an instance's session back into the process: the shared part is
one and the same for both instances. -/
def writeBack (p : ProcessState) (w : WhichInst) (st : SessionState) : ProcessState :=
  match w with
  | WhichInst.a => { shared := st.shared, instA := st.inst, instB := p.instB }
  | WhichInst.b => { shared := st.shared, instA := p.instA, instB := st.inst }

/-- `_createProxy` run by one of the two instances of the process. -/
def processCreateProxy (p : ProcessState) (w : WhichInst)
    (msgFields : List (String × JSVal)) (newId : String) :
    Except Unit (ProcessState × List Event) := do
  let (st, ev) ← createProxy (sessionOf p w) msgFields newId
  Except.ok (writeBack p w st, ev)

/-- The pending call identifier an instance's `_callProcedureResult` will
compare against: the source reads `globalThis.callId`, so every instance
observes the same value. -/
def pendingCallIdSeenBy (p : ProcessState) (w : WhichInst) : JSVal :=
  (sessionOf p w).shared.callId

/-- Substring test, modelling `url.indexOf("://") > -1`: the pattern is a
prefix of some suffix of the input. -/
def containsSub (pat : List Char) : List Char → Bool
  | [] => pat.isPrefixOf []
  | c :: rest => pat.isPrefixOf (c :: rest) || containsSub pat rest

/-- `url.split("/")` on the character list (single-character separator, JS
semantics: separators at the ends produce empty groups). -/
def splitOnSlash : List Char → List (List Char)
  | [] => [[]]
  | c :: cs =>
    if c = '/' then [] :: splitOnSlash cs
    else
      match splitOnSlash cs with
      | [] => [[c]]
      | g :: gs => (c :: g) :: gs

/-- `_getOriginURL(url)`: for any non-empty referrer, `"https://"` is
concatenated with `url.split("/")[2]` when the url contains `"://"` and
with `url.split("/")[0]` otherwise.  An out-of-range index is JavaScript
`undefined`, which string concatenation renders as `"undefined"`. -/
def getOriginURL (url : String) : String :=
  if url ≠ "" then
    if containsSub [':', '/', '/'] url.data then
      "https://" ++ ((((splitOnSlash url.data).get? 2).map fun g => String.mk g).getD "undefined")
    else
      "https://" ++ ((((splitOnSlash url.data).get? 0).map fun g => String.mk g).getD "undefined")
  else ""

/-- Destination origin chosen by `_sendWebMessage`: `document.referrer`,
else the first ancestor origin, else the empty string; a falsy (empty)
choice skips the post (`none`), otherwise the message is posted to
`_getOriginURL` of the choice. -/
def sendWebMessageTarget (referrer : String) (ancestor : Option String) : Option String :=
  let originUrl := if referrer ≠ "" then referrer else (ancestor.getD "")
  if originUrl ≠ "" then some (getOriginURL originUrl) else none

/-- Explicit description of the session state after the token-request branch
of `_createProxy` ran from `st`: `baseURL` persisted, the generated id
recorded in the shared `callId`, the waiting flag raised.  Used by theorem
statements; the theorems equate the translated handlers with it. -/
def tokenRequestState (st : SessionState) (newId : String) (resourceUrlV : JSVal) : SessionState :=
  let newStore := setAssoc st.shared.store (storageKey st "baseURL") resourceUrlV
  { shared := { callId := JSVal.str newId, waitForProxy := true, store := newStore },
    inst := st.inst }

/-- Explicit trace of the token-request branch of `_createProxy`: the
`baseURL` persist strictly precedes the `callProcedure` emission. -/
def tokenRequestEvents (st : SessionState) (newId k : String) (resourceUrlV : JSVal) : List Event :=
  [Event.storeProp (storageKey st "baseURL") resourceUrlV,
   Event.emit (callProcedureMessage newId k)]

/-- The loop predicate of `_createProxy`: entry value's `type == "ofs"`. -/
def isOfsEntry (p : String × JSVal) : Bool :=
  eqLoose (propGet p.2 "type") (JSVal.str "ofs")

/-- Explicit description of the state after a matching successful token
response was processed: proxy built from the persisted base URL and the
returned token, waiting flag cleared.  Used by theorem statements. -/
def resolvedState (st : SessionState) (tokenV : JSVal) : SessionState :=
  { shared := { st.shared with waitForProxy := false },
    inst := { st.inst with proxy := some (OFS.fromToken (getInitProperty st "baseURL") tokenV) } }

/-- Explicit description of the state after the `open` case ran the token
path and the bounded wait expired with no response: like
`tokenRequestState` but with the waiting flag forced clear. -/
def tokenRequestFinalState (st : SessionState) (newId : String) (resourceUrlV : JSVal) : SessionState :=
  let newStore := setAssoc st.shared.store (storageKey st "baseURL") resourceUrlV
  { shared := { callId := JSVal.str newId, waitForProxy := false, store := newStore },
    inst := st.inst }

/-- Explicit description of the state after the `open` case built the proxy
synchronously from inline secured credentials. -/
def credentialsFinalState (st : SessionState) (iV cV sV : JSVal) : SessionState :=
  { shared := { st.shared with waitForProxy := false },
    inst := { st.inst with proxy := some (OFS.fromCredentials iV cV sV) } }

/-- Explicit description of the state after the `init` case persisted a
host-declared application registry value. -/
def initStoredState (st : SessionState) (registryV : JSVal) : SessionState :=
  { st with shared := { st.shared with
      store := setAssoc st.shared.store (storageKey st "applications") registryV } }

/-- Concrete session used by the C1 counterexample: a token request is
outstanding under the generated identifier `CORRID`. -/
def cexStateC1 : SessionState :=
  { shared := { callId := JSVal.str "CORRID", waitForProxy := true, store := [] },
    inst := { tag := "cex", proxy := none } }

/-- Concrete inbound `callProcedureResult` fields for the C1 counterexample:
the `callId` matches the pending one but `resultData` is absent. -/
def cexMsgC1 : List (String × JSVal) :=
  [("apiVersion", JSVal.num 1), ("method", JSVal.str "callProcedureResult"),
   ("callId", JSVal.str "CORRID")]

/-- Concrete session for the C1 witness. -/
def wStateC1 : SessionState :=
  { shared := { callId := JSVal.str "WID1", waitForProxy := true, store := [("w1.baseURL", JSVal.str "https://w1.example")] },
    inst := { tag := "w1", proxy := none } }

/-- Matching successful response fields for the C1 witness. -/
def wSuccessMsgC1 : List (String × JSVal) :=
  [("callId", JSVal.str "WID1"),
   ("resultData", JSVal.obj [("status", JSVal.str "success"), ("token", JSVal.str "TOK1")])]

/-- Mismatching response fields for the C1 witness. -/
def wMismatchMsgC1 : List (String × JSVal) :=
  [("callId", JSVal.str "OTHER1")]

/-- Concrete session used by the C2 counterexample. -/
def cexStateC2 : SessionState :=
  { shared := { callId := JSVal.str "CORRID2", waitForProxy := true, store := [] },
    inst := { tag := "cex2", proxy := none } }

/-- Concrete inbound fields for the C2 counterexample: matching `callId`,
`resultData` present but with a non-success status. -/
def cexMsgC2 : List (String × JSVal) :=
  [("apiVersion", JSVal.num 1), ("method", JSVal.str "callProcedureResult"),
   ("callId", JSVal.str "CORRID2"),
   ("resultData", JSVal.obj [("status", JSVal.str "failure")])]

/-- Concrete session for the C2 witness. -/
def wStateC2 : SessionState :=
  { shared := { callId := JSVal.str "WID2", waitForProxy := true, store := [] },
    inst := { tag := "w2", proxy := none } }

/-- Matching fields with absent `resultData` for the C2 witness. -/
def wAbsentMsgC2 : List (String × JSVal) :=
  [("callId", JSVal.str "WID2")]

/-- Matching fields with failed `resultData` for the C2 witness. -/
def wFailMsgC2 : List (String × JSVal) :=
  [("callId", JSVal.str "WID2"), ("resultData", JSVal.obj [("status", JSVal.str "fail")])]

/-- Concrete application registry value for the C5/C6/C8 witnesses: one
backend-type entry under key `app1`. -/
def wRegistryVal : JSVal :=
  JSVal.obj [("app1", JSVal.obj [("type", JSVal.str "ofs"), ("resourceUrl", JSVal.str "https://ofs.example")])]

/-- Concrete session for the C5 witness: the registry is already persisted. -/
def wStateC5 : SessionState :=
  { shared := { callId := JSVal.undef, waitForProxy := false, store := [("w5.applications", wRegistryVal)] },
    inst := { tag := "w5", proxy := none } }

/-- Concrete session for the C6 witness: nothing persisted yet. -/
def wStateC6 : SessionState :=
  { shared := { callId := JSVal.undef, waitForProxy := false, store := [] },
    inst := { tag := "w6", proxy := none } }

/-- Concrete `init` fields for the C6 witness. -/
def wInitMsgC6 : List (String × JSVal) :=
  [("apiVersion", JSVal.num 1), ("method", JSVal.str "init"), ("applications", wRegistryVal)]

/-- Concrete secured credentials for the C7 witness. -/
def wSecuredDataC7 : JSVal :=
  JSVal.obj [("ofsInstance", JSVal.str "inst7"), ("ofsClientId", JSVal.str "id7"),
    ("ofsClientSecret", JSVal.str "secret7")]

/-- Concrete session for the C7 witness: no registry persisted. -/
def wStateC7 : SessionState :=
  { shared := { callId := JSVal.undef, waitForProxy := false, store := [] },
    inst := { tag := "w7", proxy := none } }

/-- Concrete `open` fields for the C7 witness. -/
def wOpenMsgC7 : List (String × JSVal) :=
  [("apiVersion", JSVal.num 1), ("method", JSVal.str "open"), ("securedData", wSecuredDataC7)]

/-- Concrete two-instance process for the C8 counterexample: instance `A`
has persisted a backend registry; the shared pending id is `OLDID`. -/
def cexProcC8 : ProcessState :=
  { shared := { callId := JSVal.str "OLDID", waitForProxy := false, store := [("A.applications", wRegistryVal)] },
    instA := { tag := "A", proxy := none },
    instB := { tag := "B", proxy := some (OFS.fromToken (JSVal.str "b") (JSVal.str "t")) } }

/-- Concrete two-instance process for the C8 witness. -/
def wProcC8 : ProcessState :=
  { shared := { callId := JSVal.str "OLD8", waitForProxy := false, store := [("A8.applications", wRegistryVal)] },
    instA := { tag := "A8", proxy := none },
    instB := { tag := "B8", proxy := none } }

/- ------------------------------------------------------------------ -/
/- Helper lemmas                                                      -/
/- ------------------------------------------------------------------ -/

theorem getStore_setAssoc_self (store : List (String × JSVal)) (key : String) (v : JSVal) :
    getStore (setAssoc store key v) key = v := by
  induction store with
  | nil => simp [setAssoc, getStore, List.find?]
  | cons p rest ih =>
    by_cases h : p.1 == key
    · cases p
      simp_all [setAssoc, getStore, List.find?]
    · cases p
      simp_all [setAssoc, getStore, List.find?]

theorem propAccess_ok (v : JSVal) (key : String)
    (h1 : v ≠ JSVal.null) (h2 : v ≠ JSVal.undef) :
    propAccess v key = Except.ok (propGet v key) := by
  cases v <;> simp_all [propAccess]

theorem truthy_ne_nullish (v : JSVal) (h : truthy v = true) :
    v ≠ JSVal.null ∧ v ≠ JSVal.undef := by
  cases v <;> simp_all [truthy]

theorem find?_eq_of_unique (entries : List (String × JSVal)) (q : String × JSVal → Bool)
    (e : String × JSVal) (hmem : e ∈ entries) (hq : q e = true)
    (huniq : ∀ p ∈ entries, q p = true → p = e) :
    entries.find? q = some e := by
  induction entries with
  | nil => cases hmem
  | cons hd tl ih =>
    by_cases h : q hd
    · have he : hd = e := huniq hd (by simp) h
      rw [List.find?_cons_of_pos _ h, he]
    · rw [List.find?_cons_of_neg _ h]
      rcases List.mem_cons.mp hmem with rfl | hmem2
      · rw [hq] at h
        contradiction
      · exact ih hmem2 (fun p hp hqp => huniq p (List.mem_cons_of_mem _ hp) hqp)

theorem waitLoopAux_off (i s : Nat) : waitLoopAux false i s = (s, false) := by
  unfold waitLoopAux
  simp

theorem waitLoopAux_on_count (n : Nat) :
    ∀ i s : Nat, i + n = 30 → waitLoopAux true i s = (s + n + 1, false) := by
  induction n with
  | zero =>
    intro i s h
    unfold waitLoopAux
    have hgt : i + 1 > 30 := by omega
    simp [hgt]
  | succ n ih =>
    intro i s h
    unfold waitLoopAux
    have hle : ¬ (i + 1 > 30) := by omega
    simp [hle]
    rw [ih (i + 1) (s + 1) (by omega)]
    have harith : s + 1 + n + 1 = s + (n + 1) + 1 := by omega
    rw [harith]

theorem createProxyLoop_found (st : SessionState) (msgFields : List (String × JSVal))
    (newId : String) (entries : List (String × JSVal)) (k : String) (app : JSVal)
    (hclean : ∀ p ∈ entries, p.2 ≠ JSVal.null ∧ p.2 ≠ JSVal.undef)
    (hfind : entries.find? isOfsEntry = some (k, app)) :
    createProxyLoop st msgFields newId entries =
      Except.ok (tokenRequestState st newId (propGet app "resourceUrl"),
        tokenRequestEvents st newId k (propGet app "resourceUrl")) := by
  induction entries with
  | nil => simp [List.find?] at hfind
  | cons hd tl ih =>
    obtain ⟨k0, a0⟩ := hd
    have hc0 := hclean (k0, a0) (by simp)
    by_cases hp : isOfsEntry (k0, a0)
    · rw [List.find?_cons_of_pos _ hp] at hfind
      injection hfind with h1
      injection h1 with hk ha
      subst hk
      subst ha
      have hp' : eqLoose (propGet a0 "type") (JSVal.str "ofs") = true := hp
      simp only [createProxyLoop, Bind.bind, Except.bind,
        propAccess_ok a0 "type" hc0.1 hc0.2,
        propAccess_ok a0 "resourceUrl" hc0.1 hc0.2, hp', if_true,
        storeInitProperty, tokenRequestState, tokenRequestEvents]
      rfl
    · rw [List.find?_cons_of_neg _ hp] at hfind
      have hp' : eqLoose (propGet a0 "type") (JSVal.str "ofs") = false := by
        simpa [isOfsEntry] using hp
      simp only [createProxyLoop, Bind.bind, Except.bind,
        propAccess_ok a0 "type" hc0.1 hc0.2, hp', if_false]
      exact ih (fun p hpmem => hclean p (List.mem_cons_of_mem _ hpmem)) hfind

theorem createProxyLoop_exhaust (st : SessionState) (msgFields : List (String × JSVal))
    (newId : String) (entries : List (String × JSVal))
    (hclean : ∀ p ∈ entries, p.2 ≠ JSVal.null ∧ p.2 ≠ JSVal.undef)
    (hnone : ∀ p ∈ entries, isOfsEntry p = false) :
    createProxyLoop st msgFields newId entries = securedDataStep st msgFields := by
  induction entries with
  | nil => rfl
  | cons hd tl ih =>
    obtain ⟨k0, a0⟩ := hd
    have hc0 := hclean (k0, a0) (by simp)
    have hp' : eqLoose (propGet a0 "type") (JSVal.str "ofs") = false := by
      simpa [isOfsEntry] using hnone (k0, a0) (by simp)
    simp only [createProxyLoop, Bind.bind, Except.bind,
      propAccess_ok a0 "type" hc0.1 hc0.2, hp', if_false]
    exact ih (fun p hpmem => hclean p (List.mem_cons_of_mem _ hpmem))
      (fun p hpmem => hnone p (List.mem_cons_of_mem _ hpmem))

theorem createProxy_token (st : SessionState) (msgFields : List (String × JSVal))
    (newId : String) (entries : List (String × JSVal)) (k : String) (app : JSVal)
    (hreg : getInitProperty st "applications" = JSVal.obj entries)
    (hclean : ∀ p ∈ entries, p.2 ≠ JSVal.null ∧ p.2 ≠ JSVal.undef)
    (hfind : entries.find? isOfsEntry = some (k, app)) :
    createProxy st msgFields newId =
      Except.ok (tokenRequestState st newId (propGet app "resourceUrl"),
        tokenRequestEvents st newId k (propGet app "resourceUrl")) := by
  have hnotnull : eqLoose (JSVal.obj entries) JSVal.null = false := rfl
  simp only [createProxy, hreg, hnotnull, Bool.false_eq_true, if_false,
    entriesOfE, Bind.bind, Except.bind]
  exact createProxyLoop_found st msgFields newId entries k app hclean hfind

theorem createProxy_no_backend (st : SessionState) (msgFields : List (String × JSVal))
    (newId : String)
    (hreg : getInitProperty st "applications" = JSVal.null ∨
      ∃ entries, getInitProperty st "applications" = JSVal.obj entries ∧
        (∀ p ∈ entries, p.2 ≠ JSVal.null ∧ p.2 ≠ JSVal.undef) ∧
        (∀ p ∈ entries, isOfsEntry p = false)) :
    createProxy st msgFields newId = securedDataStep st msgFields := by
  rcases hreg with hnull | ⟨entries, hobj, hclean, hnone⟩
  · have : eqLoose JSVal.null JSVal.null = true := rfl
    simp only [createProxy, hnull, this, if_true]
  · have hnotnull : eqLoose (JSVal.obj entries) JSVal.null = false := rfl
    simp only [createProxy, hobj, hnotnull, Bool.false_eq_true, if_false,
      entriesOfE, Bind.bind, Except.bind]
    exact createProxyLoop_exhaust st msgFields newId entries hclean hnone

theorem securedDataStep_success (st : SessionState) (msgFields : List (String × JSVal))
    (sd iV cV sV : JSVal)
    (hsd : getField msgFields "securedData" = sd) (htsd : truthy sd = true)
    (hi : propGet sd "ofsInstance" = iV) (hti : truthy iV = true)
    (hc : propGet sd "ofsClientId" = cV) (htc : truthy cV = true)
    (hs : propGet sd "ofsClientSecret" = sV) (hts : truthy sV = true) :
    securedDataStep st msgFields =
      Except.ok ({ st with inst := { st.inst with
        proxy := some (OFS.fromCredentials iV cV sV) } }, []) := by
  have hnn := truthy_ne_nullish sd htsd
  simp only [securedDataStep, hsd, htsd, if_true, Bind.bind, Except.bind,
    propAccess_ok sd "ofsInstance" hnn.1 hnn.2,
    propAccess_ok sd "ofsClientId" hnn.1 hnn.2,
    propAccess_ok sd "ofsClientSecret" hnn.1 hnn.2,
    hi, hti, hc, htc, hs, hts]

theorem callProcedureResultStep_mismatch (st : SessionState) (msgFields : List (String × JSVal))
    (h : eqLoose (getField msgFields "callId") st.shared.callId = false) :
    callProcedureResultStep st msgFields =
      Except.ok (st, [Event.extCallProcedureResult msgFields]) := by
  simp only [callProcedureResultStep, h, Bool.false_eq_true, if_false]

theorem callProcedureResultStep_success (st : SessionState) (msgFields : List (String × JSVal))
    (rdFields : List (String × JSVal))
    (hmatch : eqLoose (getField msgFields "callId") st.shared.callId = true)
    (hrdKey : hasKey msgFields "resultData" = true)
    (hrd : getField msgFields "resultData" = JSVal.obj rdFields)
    (hstatusKey : hasKey rdFields "status" = true)
    (hsuccess : eqLoose (getField rdFields "status") (JSVal.str "success") = true) :
    callProcedureResultStep st msgFields =
      Except.ok (resolvedState st (getField rdFields "token"), []) := by
  simp only [callProcedureResultStep, hmatch, if_true, hrdKey, hrd, jsInOp, hstatusKey,
    Bind.bind, Except.bind, propAccess, propGet, hsuccess, resolvedState]

theorem callProcedureResultStep_missing (st : SessionState) (msgFields : List (String × JSVal))
    (hmatch : eqLoose (getField msgFields "callId") st.shared.callId = true)
    (hnokey : hasKey msgFields "resultData" = false) :
    callProcedureResultStep st msgFields =
      Except.ok (st, [Event.logError "Problems processing the Token Response"]) := by
  simp only [callProcedureResultStep, hmatch, if_true, hnokey, Bool.false_eq_true, if_false]

theorem callProcedureResultStep_nonsuccess (st : SessionState) (msgFields : List (String × JSVal))
    (rdFields : List (String × JSVal))
    (hmatch : eqLoose (getField msgFields "callId") st.shared.callId = true)
    (hrdKey : hasKey msgFields "resultData" = true)
    (hrd : getField msgFields "resultData" = JSVal.obj rdFields)
    (hfail : eqLoose (getField rdFields "status") (JSVal.str "success") = false) :
    callProcedureResultStep st msgFields = Except.ok (st, []) := by
  by_cases hsk : hasKey rdFields "status"
  · simp only [callProcedureResultStep, hmatch, if_true, hrdKey, hrd, jsInOp, hsk,
      Bind.bind, Except.bind, propAccess, propGet, hfail, Bool.false_eq_true, if_false]
  · simp only [callProcedureResultStep, hmatch, if_true, hrdKey, hrd, jsInOp,
      Bind.bind, Except.bind, hsk, Bool.false_eq_true, if_false]

/-- C1 counterexample: an inbound `callProcedureResult` whose `callId` equals
the recorded pending identifier but which carries no `resultData` leaves the
acquisition unresolved — the proxy stays absent and the waiting flag stays
set, the handler only logs — so "resolved if and only if the callId matches"
fails in the "if" direction. -/
theorem matched_without_result_not_resolved_cex :
    eqLoose (getField cexMsgC1 "callId") cexStateC1.shared.callId = true
  ∧ callProcedureResultStep cexStateC1 cexMsgC1 =
      Except.ok (cexStateC1, [Event.logError "Problems processing the Token Response"])
  ∧ cexStateC1.inst.proxy = none
  ∧ cexStateC1.shared.waitForProxy = true :=
  ⟨rfl, rfl, rfl, rfl⟩

/-- C1 (amended): with a pending identifier recorded, a `callProcedureResult`
whose `callId` differs is forwarded to the overridable extension handler with
the whole state unchanged; a matching `callId` resolves the acquisition
(builds the client from the persisted base URL and returned token and clears
the waiting flag) precisely when `resultData` is additionally present with
status `"success"` — matching alone is necessary but not sufficient. -/
theorem callProcedureResult_correlation
    (st : SessionState) (pending : String) (msgFields : List (String × JSVal))
    (hpend : st.shared.callId = JSVal.str pending) :
    (eqLoose (getField msgFields "callId") (JSVal.str pending) = false →
      callProcedureResultStep st msgFields =
        Except.ok (st, [Event.extCallProcedureResult msgFields]))
  ∧ (∀ rdFields : List (String × JSVal),
      getField msgFields "callId" = JSVal.str pending →
      hasKey msgFields "resultData" = true →
      getField msgFields "resultData" = JSVal.obj rdFields →
      hasKey rdFields "status" = true →
      eqLoose (getField rdFields "status") (JSVal.str "success") = true →
      callProcedureResultStep st msgFields =
        Except.ok (resolvedState st (getField rdFields "token"), [])) := by
  constructor
  · intro h
    exact callProcedureResultStep_mismatch st msgFields (by rw [hpend]; exact h)
  · intro rdFields hcall hrdKey hrd hstatusKey hsuccess
    have hmatch : eqLoose (getField msgFields "callId") st.shared.callId = true := by
      rw [hpend, hcall]
      simp [eqLoose, primN, eqPrimitive]
    exact callProcedureResultStep_success st msgFields rdFields hmatch hrdKey hrd hstatusKey hsuccess

/-- C1 witness: both arms of the correlation theorem at concrete inputs. -/
theorem callProcedureResult_correlation_witness :
    callProcedureResultStep wStateC1 wMismatchMsgC1 =
      Except.ok (wStateC1, [Event.extCallProcedureResult wMismatchMsgC1])
  ∧ callProcedureResultStep wStateC1 wSuccessMsgC1 =
      Except.ok (resolvedState wStateC1 (JSVal.str "TOK1"), []) := by
  constructor
  · exact (callProcedureResult_correlation wStateC1 "WID1" wMismatchMsgC1 rfl).1 rfl
  · exact (callProcedureResult_correlation wStateC1 "WID1" wSuccessMsgC1 rfl).2
      [("status", JSVal.str "success"), ("token", JSVal.str "TOK1")] rfl rfl rfl rfl rfl

/-- C2 counterexample: a matching response whose `resultData` is present but
not successful is processed without logging anything and without clearing
the waiting flag — the state is returned unchanged with an empty trace, so
"logs the failure and releases the suspension" fails on both counts. -/
theorem matched_failure_keeps_waiting_cex :
    eqLoose (getField cexMsgC2 "callId") cexStateC2.shared.callId = true
  ∧ callProcedureResultStep cexStateC2 cexMsgC2 = Except.ok (cexStateC2, [])
  ∧ cexStateC2.shared.waitForProxy = true :=
  ⟨rfl, rfl, rfl⟩

/-- C2 (amended): on a matching response that fails or is malformed the
handler does not release the suspension — the state (including the raised
waiting flag) is unchanged; an absent `resultData` is logged as an error
while a present non-success `resultData` is silently ignored.  The open
sequence is unblocked only by the bounded wait of the `open` case (C5). -/
theorem callProcedureResult_failure_behavior
    (st : SessionState) (pending : String) (msgFields : List (String × JSVal))
    (hpend : st.shared.callId = JSVal.str pending)
    (hcall : getField msgFields "callId" = JSVal.str pending) :
    (hasKey msgFields "resultData" = false →
      callProcedureResultStep st msgFields =
        Except.ok (st, [Event.logError "Problems processing the Token Response"]))
  ∧ (∀ rdFields : List (String × JSVal),
      hasKey msgFields "resultData" = true →
      getField msgFields "resultData" = JSVal.obj rdFields →
      eqLoose (getField rdFields "status") (JSVal.str "success") = false →
      callProcedureResultStep st msgFields = Except.ok (st, [])) := by
  have hmatch : eqLoose (getField msgFields "callId") st.shared.callId = true := by
    rw [hpend, hcall]
    simp [eqLoose, primN, eqPrimitive]
  constructor
  · intro hnokey
    exact callProcedureResultStep_missing st msgFields hmatch hnokey
  · intro rdFields hrdKey hrd hfail
    exact callProcedureResultStep_nonsuccess st msgFields rdFields hmatch hrdKey hrd hfail

/-- C2 witness: both failure shapes at concrete inputs. -/
theorem callProcedureResult_failure_behavior_witness :
    callProcedureResultStep wStateC2 wAbsentMsgC2 =
      Except.ok (wStateC2, [Event.logError "Problems processing the Token Response"])
  ∧ callProcedureResultStep wStateC2 wFailMsgC2 = Except.ok (wStateC2, [])
  ∧ wStateC2.shared.waitForProxy = true := by
  refine ⟨?_, ?_, rfl⟩
  · exact (callProcedureResult_failure_behavior wStateC2 "WID2" wAbsentMsgC2 rfl rfl).1 rfl
  · exact (callProcedureResult_failure_behavior wStateC2 "WID2" wFailMsgC2 rfl rfl).2
      [("status", JSVal.str "fail")] rfl rfl rfl

/-- C3: a string method tag in the recognized set is dispatched to exactly
its own handler route (distinct per tag, never the unknown-method raise and
never the discard); a tag outside the set other than the `"no method"`
sentinel hits the thrown unknown-method failure; the sentinel itself is
discarded without raising. -/
theorem dispatch_recognized_methods (t : String) :
    (t ∈ recognizedMethods →
      dispatchAction (JSVal.str t) = routeOf t ∧
      routeOf t ≠ DispatchAction.raiseUnknownMethod ∧
      routeOf t ≠ DispatchAction.discardNoMethod ∧
      (∀ u ∈ recognizedMethods, routeOf u = routeOf t → u = t))
  ∧ (t ∉ recognizedMethods → t ≠ "no method" →
      dispatchAction (JSVal.str t) = DispatchAction.raiseUnknownMethod)
  ∧ dispatchAction (JSVal.str "no method") = DispatchAction.discardNoMethod := by
  refine ⟨?_, ?_, rfl⟩
  · intro h
    fin_cases h <;> exact ⟨rfl, by decide, by decide, by decide⟩
  · intro h hnm
    simp only [recognizedMethods, List.mem_cons, List.mem_singleton] at h
    push_neg at h
    obtain ⟨h1, h2, h3, h4, h5, h6⟩ := h
    simp [dispatchAction, h1, h2, h3, h4, h5, h6, hnm]

/-- C3 witness: a recognized tag routes to its handler, an unrecognized tag
raises. -/
theorem dispatch_recognized_methods_witness :
    dispatchAction (JSVal.str "init") = DispatchAction.routeInitCase
  ∧ dispatchAction (JSVal.str "bogus") = DispatchAction.raiseUnknownMethod := by
  constructor
  · exact ((dispatch_recognized_methods "init").1 (by decide)).1
  · exact (dispatch_recognized_methods "bogus").2.1 (by decide) (by decide)

/-- C4: `OFSMessage.parse` is a total function (the `try`/`catch` makes the
model total — it can never raise), and on every string the platform
`JSON.parse` rejects it returns the default envelope, whose `method` is the
`"no method"` sentinel and whose `apiVersion` is `-1`. -/
theorem parse_malformed_default (s : String) (h : jsonParseE s = Except.error ()) :
    OFSMessage.parse s = JSVal.obj ofsMessageDefaults
  ∧ propGet (OFSMessage.parse s) "method" = JSVal.str "no method"
  ∧ propGet (OFSMessage.parse s) "apiVersion" = JSVal.num (-1) := by
  have hp : OFSMessage.parse s = JSVal.obj ofsMessageDefaults := by
    simp only [OFSMessage.parse, h]
  exact ⟨hp, by rw [hp]; rfl, by rw [hp]; rfl⟩

/-- C4 witness: a concretely malformed input. -/
theorem parse_malformed_default_witness :
    jsonParseE "not json" = Except.error ()
  ∧ OFSMessage.parse "not json" = JSVal.obj ofsMessageDefaults
  ∧ propGet (OFSMessage.parse "not json") "method" = JSVal.str "no method"
  ∧ propGet (OFSMessage.parse "not json") "apiVersion" = JSVal.num (-1) :=
  ⟨rfl, (parse_malformed_default "not json" rfl).1,
   (parse_malformed_default "not json" rfl).2.1,
   (parse_malformed_default "not json" rfl).2.2⟩

theorem waitLoopAux_full : waitLoopAux true 0 0 = (31, false) := by
  have h := waitLoopAux_on_count 30 0 0 (by omega)
  simpa using h

theorem handleOpenCase_token (st : SessionState) (msgFields : List (String × JSVal))
    (newId : String) (entries : List (String × JSVal)) (k : String) (app : JSVal)
    (hreg : getInitProperty st "applications" = JSVal.obj entries)
    (hclean : ∀ p ∈ entries, p.2 ≠ JSVal.null ∧ p.2 ≠ JSVal.undef)
    (hfind : entries.find? isOfsEntry = some (k, app)) :
    handleOpenCase st msgFields newId =
      Except.ok (tokenRequestFinalState st newId (propGet app "resourceUrl"),
        tokenRequestEvents st newId k (propGet app "resourceUrl") ++ [Event.openInvoked msgFields],
        31) := by
  have hcp := createProxy_token
    { st with shared := { st.shared with waitForProxy := false } } msgFields newId entries k app
    hreg hclean hfind
  simp only [handleOpenCase, Bind.bind, Except.bind, hcp]
  have hflag : (tokenRequestState
      { st with shared := { st.shared with waitForProxy := false } } newId
      (propGet app "resourceUrl")).shared.waitForProxy = true := rfl
  rw [hflag, waitLoopAux_full]
  rfl

theorem handleOpenCase_credentials (st : SessionState) (msgFields : List (String × JSVal))
    (newId : String) (sd iV cV sV : JSVal)
    (hreg : getInitProperty st "applications" = JSVal.null ∨
      ∃ entries, getInitProperty st "applications" = JSVal.obj entries ∧
        (∀ p ∈ entries, p.2 ≠ JSVal.null ∧ p.2 ≠ JSVal.undef) ∧
        (∀ p ∈ entries, isOfsEntry p = false))
    (hsd : getField msgFields "securedData" = sd) (htsd : truthy sd = true)
    (hi : propGet sd "ofsInstance" = iV) (hti : truthy iV = true)
    (hc : propGet sd "ofsClientId" = cV) (htc : truthy cV = true)
    (hs2 : propGet sd "ofsClientSecret" = sV) (hts : truthy sV = true) :
    handleOpenCase st msgFields newId =
      Except.ok (credentialsFinalState st iV cV sV, [Event.openInvoked msgFields], 0) := by
  have hnb := createProxy_no_backend
    { st with shared := { st.shared with waitForProxy := false } } msgFields newId hreg
  have hsds := securedDataStep_success
    { st with shared := { st.shared with waitForProxy := false } } msgFields sd iV cV sV
    hsd htsd hi hti hc htc hs2 hts
  simp only [handleOpenCase, Bind.bind, Except.bind, hnb, hsds]
  rw [waitLoopAux_off]
  rfl

/-- C5: when an `open` envelope takes the token path (the persisted registry
has a backend-type entry) and no matching `callProcedureResult` ever
arrives, the polling loop performs exactly the 31 bounded sleeps and stops
(the function is total — no permanent hang), the waiting flag ends up forced
clear, the `open` extension point is still invoked, and the authenticated
client is left unset. -/
theorem open_wait_bounded (st : SessionState) (msgFields : List (String × JSVal))
    (newId : String) (entries : List (String × JSVal)) (k : String) (app : JSVal)
    (hproxy : st.inst.proxy = none)
    (hreg : getInitProperty st "applications" = JSVal.obj entries)
    (hclean : ∀ p ∈ entries, p.2 ≠ JSVal.null ∧ p.2 ≠ JSVal.undef)
    (hfind : entries.find? isOfsEntry = some (k, app)) :
    handleOpenCase st msgFields newId =
      Except.ok (tokenRequestFinalState st newId (propGet app "resourceUrl"),
        tokenRequestEvents st newId k (propGet app "resourceUrl") ++ [Event.openInvoked msgFields],
        31)
  ∧ (tokenRequestFinalState st newId (propGet app "resourceUrl")).shared.waitForProxy = false
  ∧ (tokenRequestFinalState st newId (propGet app "resourceUrl")).inst.proxy = none := by
  refine ⟨handleOpenCase_token st msgFields newId entries k app hreg hclean hfind, rfl, ?_⟩
  simpa [tokenRequestFinalState] using hproxy

/-- C5 witness: the bounded wait at a concrete session with a persisted
backend registry. -/
theorem open_wait_bounded_witness :
    handleOpenCase wStateC5 [] "NEWID5" =
      Except.ok (tokenRequestFinalState wStateC5 "NEWID5" (JSVal.str "https://ofs.example"),
        tokenRequestEvents wStateC5 "NEWID5" "app1" (JSVal.str "https://ofs.example") ++
          [Event.openInvoked []],
        31)
  ∧ (tokenRequestFinalState wStateC5 "NEWID5" (JSVal.str "https://ofs.example")).shared.waitForProxy = false
  ∧ (tokenRequestFinalState wStateC5 "NEWID5" (JSVal.str "https://ofs.example")).inst.proxy = none := by
  have h := open_wait_bounded wStateC5 [] "NEWID5"
    [("app1", JSVal.obj [("type", JSVal.str "ofs"), ("resourceUrl", JSVal.str "https://ofs.example")])]
    "app1" (JSVal.obj [("type", JSVal.str "ofs"), ("resourceUrl", JSVal.str "https://ofs.example")])
    rfl rfl
    (by intro p hp; fin_cases hp
        exact ⟨fun hx => JSVal.noConfusion hx, fun hx => JSVal.noConfusion hx⟩) rfl
  exact h

/-- C6: after an `init` whose registry has exactly one backend-type
(`"ofs"`) entry with resource URL `U` is persisted, processing `open` takes
the token path: the trace of the open case contains exactly one
`callProcedure` emission — a `getAccessToken` request for that application —
and `U` is persisted as `baseURL` before it (the store event strictly
precedes the emit in `tokenRequestEvents`), ending up readable from the
store. -/
theorem token_acquisition_emits_one_call
    (st : SessionState) (initFields openFields : List (String × JSVal)) (newId : String)
    (entries : List (String × JSVal)) (k : String) (app : JSVal)
    (happs : getField initFields "applications" = JSVal.obj entries)
    (hclean : ∀ p ∈ entries, p.2 ≠ JSVal.null ∧ p.2 ≠ JSVal.undef)
    (hmem : (k, app) ∈ entries)
    (htype : isOfsEntry (k, app) = true)
    (huniq : ∀ p ∈ entries, isOfsEntry p = true → p = (k, app)) :
    handleInitCase st initFields =
      (initStoredState st (JSVal.obj entries),
       [Event.storeProp (storageKey st "applications") (JSVal.obj entries),
        Event.emit initEndMessage])
  ∧ handleOpenCase (initStoredState st (JSVal.obj entries)) openFields newId =
      Except.ok
        (tokenRequestFinalState (initStoredState st (JSVal.obj entries)) newId
          (propGet app "resourceUrl"),
         tokenRequestEvents (initStoredState st (JSVal.obj entries)) newId k
            (propGet app "resourceUrl") ++ [Event.openInvoked openFields],
         31)
  ∧ (tokenRequestEvents (initStoredState st (JSVal.obj entries)) newId k
        (propGet app "resourceUrl") ++ [Event.openInvoked openFields]).filter isCallProcedureEmit =
      [Event.emit (callProcedureMessage newId k)]
  ∧ getStore (tokenRequestFinalState (initStoredState st (JSVal.obj entries)) newId
        (propGet app "resourceUrl")).shared.store (storageKey st "baseURL") =
      propGet app "resourceUrl"
  ∧ propGet (callProcedureMessage newId k) "procedure" = JSVal.str "getAccessToken" := by
  have htr : truthy (JSVal.obj entries) = true := rfl
  have hfind : entries.find? isOfsEntry = some (k, app) :=
    find?_eq_of_unique entries isOfsEntry (k, app) hmem htype huniq
  have hreg1 : getInitProperty (initStoredState st (JSVal.obj entries)) "applications" =
      JSVal.obj entries := by
    show getStore (setAssoc st.shared.store (storageKey st "applications") (JSVal.obj entries))
      (storageKey st "applications") = JSVal.obj entries
    exact getStore_setAssoc_self st.shared.store (storageKey st "applications") (JSVal.obj entries)
  refine ⟨?_, ?_, rfl, ?_, rfl⟩
  · simp only [handleInitCase, storeInitData, happs, htr, if_true, storeInitProperty,
      initStoredState]
    rfl
  · exact handleOpenCase_token (initStoredState st (JSVal.obj entries)) openFields newId
      entries k app hreg1 hclean hfind
  · show getStore (setAssoc (initStoredState st (JSVal.obj entries)).shared.store
        (storageKey (initStoredState st (JSVal.obj entries)) "baseURL") (propGet app "resourceUrl"))
        (storageKey st "baseURL") = propGet app "resourceUrl"
    exact getStore_setAssoc_self _ _ _

/-- C6 witness: the init/open pair at a concrete session. -/
theorem token_acquisition_emits_one_call_witness :
    handleInitCase wStateC6 wInitMsgC6 =
      (initStoredState wStateC6 wRegistryVal,
       [Event.storeProp "w6.applications" wRegistryVal, Event.emit initEndMessage])
  ∧ handleOpenCase (initStoredState wStateC6 wRegistryVal) [] "NEWID6" =
      Except.ok
        (tokenRequestFinalState (initStoredState wStateC6 wRegistryVal) "NEWID6"
          (JSVal.str "https://ofs.example"),
         tokenRequestEvents (initStoredState wStateC6 wRegistryVal) "NEWID6" "app1"
            (JSVal.str "https://ofs.example") ++ [Event.openInvoked []],
         31)
  ∧ propGet (callProcedureMessage "NEWID6" "app1") "procedure" = JSVal.str "getAccessToken" := by
  have h := token_acquisition_emits_one_call wStateC6 wInitMsgC6 [] "NEWID6"
    [("app1", JSVal.obj [("type", JSVal.str "ofs"), ("resourceUrl", JSVal.str "https://ofs.example")])]
    "app1" (JSVal.obj [("type", JSVal.str "ofs"), ("resourceUrl", JSVal.str "https://ofs.example")])
    rfl
    (by intro p hp; fin_cases hp
        exact ⟨fun hx => JSVal.noConfusion hx, fun hx => JSVal.noConfusion hx⟩)
    (List.mem_singleton.mpr rfl) rfl
    (by intro p hp hq; fin_cases hp; rfl)
  exact ⟨h.1, h.2.1, h.2.2.2.2⟩

/-- C7: when the persisted registry has no backend-type entry (it is absent
or lists only non-`"ofs"` entries) and the `open` envelope carries truthy
`securedData` with all three of `ofsInstance`, `ofsClientId` and
`ofsClientSecret`, the open case builds the authenticated client
synchronously from those credentials, performs no sleep (no suspension),
emits nothing — in particular no `callProcedure` — and still invokes the
`open` extension point. -/
theorem inline_credentials_synchronous
    (st : SessionState) (openFields : List (String × JSVal)) (newId : String)
    (sd iV cV sV : JSVal)
    (hreg : getInitProperty st "applications" = JSVal.null ∨
      ∃ entries, getInitProperty st "applications" = JSVal.obj entries ∧
        (∀ p ∈ entries, p.2 ≠ JSVal.null ∧ p.2 ≠ JSVal.undef) ∧
        (∀ p ∈ entries, isOfsEntry p = false))
    (hsd : getField openFields "securedData" = sd) (htsd : truthy sd = true)
    (hi : propGet sd "ofsInstance" = iV) (hti : truthy iV = true)
    (hc : propGet sd "ofsClientId" = cV) (htc : truthy cV = true)
    (hs2 : propGet sd "ofsClientSecret" = sV) (hts : truthy sV = true) :
    handleOpenCase st openFields newId =
      Except.ok (credentialsFinalState st iV cV sV, [Event.openInvoked openFields], 0)
  ∧ ([Event.openInvoked openFields]).filter isCallProcedureEmit = []
  ∧ (credentialsFinalState st iV cV sV).inst.proxy = some (OFS.fromCredentials iV cV sV) := by
  exact ⟨handleOpenCase_credentials st openFields newId sd iV cV sV hreg hsd htsd hi hti hc htc
    hs2 hts, rfl, rfl⟩

/-- C7 witness: inline credentials at a concrete session with no persisted
registry. -/
theorem inline_credentials_synchronous_witness :
    handleOpenCase wStateC7 wOpenMsgC7 "NEWID7" =
      Except.ok (credentialsFinalState wStateC7 (JSVal.str "inst7") (JSVal.str "id7")
        (JSVal.str "secret7"), [Event.openInvoked wOpenMsgC7], 0)
  ∧ (credentialsFinalState wStateC7 (JSVal.str "inst7") (JSVal.str "id7")
      (JSVal.str "secret7")).inst.proxy =
      some (OFS.fromCredentials (JSVal.str "inst7") (JSVal.str "id7") (JSVal.str "secret7")) := by
  have h := inline_credentials_synchronous wStateC7 wOpenMsgC7 "NEWID7" wSecuredDataC7
    (JSVal.str "inst7") (JSVal.str "id7") (JSVal.str "secret7")
    (Or.inl rfl) rfl rfl rfl rfl rfl rfl rfl rfl
  exact ⟨h.1, h.2.2⟩

/-- C8 counterexample: `callId` and `waitForProxy` are `globalThis`
variables, not per-instance fields.  In a concrete two-instance process an
acquisition step performed by instance `A` overwrites the pending call
identifier and the waiting flag that instance `B`'s correlation handler
reads — `B`'s observed pending id changes from `OLDID` to `NEWID` — so the
claimed frame property (the other instance's pending id and waiting state
are left unchanged) is false. -/
theorem global_correlation_cross_instance_cex :
    pendingCallIdSeenBy cexProcC8 WhichInst.b = JSVal.str "OLDID"
  ∧ processCreateProxy cexProcC8 WhichInst.a [] "NEWID" =
      Except.ok (writeBack cexProcC8 WhichInst.a
        (tokenRequestState (sessionOf cexProcC8 WhichInst.a) "NEWID"
          (JSVal.str "https://ofs.example")),
        tokenRequestEvents (sessionOf cexProcC8 WhichInst.a) "NEWID" "app1"
          (JSVal.str "https://ofs.example"))
  ∧ pendingCallIdSeenBy (writeBack cexProcC8 WhichInst.a
        (tokenRequestState (sessionOf cexProcC8 WhichInst.a) "NEWID"
          (JSVal.str "https://ofs.example"))) WhichInst.b = JSVal.str "NEWID"
  ∧ (writeBack cexProcC8 WhichInst.a
        (tokenRequestState (sessionOf cexProcC8 WhichInst.a) "NEWID"
          (JSVal.str "https://ofs.example"))).shared.waitForProxy = true :=
  ⟨rfl, rfl, rfl, rfl⟩

/-- C8 (amended): the pending call identifier and the proxy-wait flag are
process-wide shared globals, not per-instance session state: an acquisition
step by one instance overwrites both for every instance of the process;
only the `_proxy` and `_tag` fields (and the other instance's namespaced
store keys) are per-instance, so instance `B`'s local fields survive
unchanged while its observed pending id and waiting flag do not. -/
theorem global_correlation_shared_state
    (p : ProcessState) (msgFields : List (String × JSVal)) (newId : String)
    (entries : List (String × JSVal)) (k : String) (app : JSVal)
    (hreg : getInitProperty (sessionOf p WhichInst.a) "applications" = JSVal.obj entries)
    (hclean : ∀ q ∈ entries, q.2 ≠ JSVal.null ∧ q.2 ≠ JSVal.undef)
    (hfind : entries.find? isOfsEntry = some (k, app)) :
    processCreateProxy p WhichInst.a msgFields newId =
      Except.ok (writeBack p WhichInst.a
        (tokenRequestState (sessionOf p WhichInst.a) newId (propGet app "resourceUrl")),
        tokenRequestEvents (sessionOf p WhichInst.a) newId k (propGet app "resourceUrl"))
  ∧ pendingCallIdSeenBy (writeBack p WhichInst.a
        (tokenRequestState (sessionOf p WhichInst.a) newId (propGet app "resourceUrl")))
        WhichInst.b = JSVal.str newId
  ∧ (writeBack p WhichInst.a
        (tokenRequestState (sessionOf p WhichInst.a) newId (propGet app "resourceUrl"))).shared.waitForProxy = true
  ∧ (writeBack p WhichInst.a
        (tokenRequestState (sessionOf p WhichInst.a) newId (propGet app "resourceUrl"))).instB = p.instB := by
  have hcp := createProxy_token (sessionOf p WhichInst.a) msgFields newId entries k app
    hreg hclean hfind
  refine ⟨?_, rfl, rfl, rfl⟩
  simp only [processCreateProxy, Bind.bind, Except.bind, hcp]

/-- C8 witness for the amended statement, at a concrete two-instance
process. -/
theorem global_correlation_shared_state_witness :
    processCreateProxy wProcC8 WhichInst.a [] "NEW8" =
      Except.ok (writeBack wProcC8 WhichInst.a
        (tokenRequestState (sessionOf wProcC8 WhichInst.a) "NEW8"
          (JSVal.str "https://ofs.example")),
        tokenRequestEvents (sessionOf wProcC8 WhichInst.a) "NEW8" "app1"
          (JSVal.str "https://ofs.example"))
  ∧ pendingCallIdSeenBy (writeBack wProcC8 WhichInst.a
        (tokenRequestState (sessionOf wProcC8 WhichInst.a) "NEW8"
          (JSVal.str "https://ofs.example"))) WhichInst.b = JSVal.str "NEW8"
  ∧ (writeBack wProcC8 WhichInst.a
        (tokenRequestState (sessionOf wProcC8 WhichInst.a) "NEW8"
          (JSVal.str "https://ofs.example"))).instB = wProcC8.instB := by
  have h := global_correlation_shared_state wProcC8 [] "NEW8"
    [("app1", JSVal.obj [("type", JSVal.str "ofs"), ("resourceUrl", JSVal.str "https://ofs.example")])]
    "app1" (JSVal.obj [("type", JSVal.str "ofs"), ("resourceUrl", JSVal.str "https://ofs.example")])
    rfl
    (by intro q hq; fin_cases hq
        exact ⟨fun hx => JSVal.noConfusion hx, fun hx => JSVal.noConfusion hx⟩)
    rfl
  exact ⟨h.1, h.2.1, h.2.2.2⟩

/-- C9: the `ready` envelope built by `setup` does not announce the supplied
flag values — with `sendInitData := false`, `enableBackButton := false`,
`showHeader := false`, `sendMessageAsJsObject := true` and a `dataItems`
list supplied, the envelope still carries the hardcoded
`sendInitData: true`, omits every other flag, and is identical to the
envelope produced by the default configuration. -/
theorem setup_ready_ignores_flags :
    setupReadyMessage false false false true (some ["x"]) =
      JSVal.obj [("apiVersion", JSVal.num 1), ("method", JSVal.str "ready"),
        ("sendInitData", JSVal.bool true)]
  ∧ propGet (setupReadyMessage false false false true (some ["x"])) "sendInitData" = JSVal.bool true
  ∧ propGet (setupReadyMessage false false false true (some ["x"])) "enableBackButton" = JSVal.undef
  ∧ propGet (setupReadyMessage false false false true (some ["x"])) "showHeader" = JSVal.undef
  ∧ propGet (setupReadyMessage false false false true (some ["x"])) "sendMessageAsJsObject" = JSVal.undef
  ∧ propGet (setupReadyMessage false false false true (some ["x"])) "dataItems" = JSVal.undef
  ∧ setupReadyMessage false false false true (some ["x"]) =
      setupReadyMessage true true true false none :=
  ⟨rfl, rfl, rfl, rfl, rfl, rfl, rfl⟩

theorem splitOnSlash_no_sep (a : List Char) (h : ¬ '/' ∈ a) : splitOnSlash a = [a] := by
  induction a with
  | nil => rfl
  | cons c cs ih =>
    have hc : ¬ (c = '/') := fun hceq => h (by simp [hceq])
    have hcs : ¬ '/' ∈ cs := fun hmem => h (List.mem_cons_of_mem _ hmem)
    simp [splitOnSlash, hc, ih hcs]

theorem splitOnSlash_append (a b : List Char) (h : ¬ '/' ∈ a) :
    splitOnSlash (a ++ '/' :: b) = a :: splitOnSlash b := by
  induction a with
  | nil => simp [splitOnSlash]
  | cons c cs ih =>
    have hc : ¬ (c = '/') := fun hceq => h (by simp [hceq])
    have hcs : ¬ '/' ∈ cs := fun hmem => h (List.mem_cons_of_mem _ hmem)
    simp [splitOnSlash, hc, ih hcs]

theorem containsSub_of_prefix (pat b : List Char) (h : pat.isPrefixOf b = true) :
    ∀ a : List Char, containsSub pat (a ++ b) = true := by
  intro a
  induction a with
  | nil =>
    cases b with
    | nil => simpa [containsSub] using h
    | cons c cs => simp [containsSub, h]
  | cons c cs ih => simp [containsSub, ih]

theorem isPrefixOf_sepPattern (X : List Char) :
    List.isPrefixOf [':', '/', '/'] (':' :: '/' :: '/' :: X) = true := by
  simp [List.isPrefixOf]

/-- C10: for a non-empty referrer of the shape `scheme://host/path` (or
`scheme://host`), the destination origin `_getOriginURL` derives — and
`_sendWebMessage` posts to — is exactly `"https://" ++ host`, regardless of
the referrer's scheme: the original scheme (for instance `http`) is not
preserved. -/
theorem origin_derivation_forces_https (scheme host rest : String)
    (hs : ¬ ('/' : Char) ∈ scheme.data) (hh : ¬ ('/' : Char) ∈ host.data) :
    getOriginURL (scheme ++ "://" ++ host ++ "/" ++ rest) = "https://" ++ host
  ∧ getOriginURL (scheme ++ "://" ++ host) = "https://" ++ host
  ∧ sendWebMessageTarget (scheme ++ "://" ++ host ++ "/" ++ rest) none =
      some ("https://" ++ host) := by
  have hna : ¬ '/' ∈ (scheme.data ++ [':']) := by
    intro hmem
    rcases List.mem_append.mp hmem with hmem1 | hmem2
    · exact hs hmem1
    · simp at hmem2
  have hd1 : (scheme ++ "://" ++ host ++ "/" ++ rest).data =
      (scheme.data ++ [':']) ++ '/' :: ('/' :: (host.data ++ '/' :: rest.data)) := by
    simp [String.data_append]
  have hd2 : (scheme ++ "://" ++ host).data =
      (scheme.data ++ [':']) ++ '/' :: ('/' :: host.data) := by
    simp [String.data_append]
  have hne1 : (scheme ++ "://" ++ host ++ "/" ++ rest) ≠ "" := by
    intro hcontra
    have := congrArg String.data hcontra
    rw [hd1] at this
    simp at this
  have hne2 : (scheme ++ "://" ++ host) ≠ "" := by
    intro hcontra
    have := congrArg String.data hcontra
    rw [hd2] at this
    simp at this
  have hcontains1 : containsSub [':', '/', '/'] (scheme ++ "://" ++ host ++ "/" ++ rest).data = true := by
    rw [hd1]
    have : (scheme.data ++ [':']) ++ '/' :: ('/' :: (host.data ++ '/' :: rest.data)) =
        scheme.data ++ (':' :: '/' :: '/' :: (host.data ++ '/' :: rest.data)) := by
      simp
    rw [this]
    exact containsSub_of_prefix _ _ (isPrefixOf_sepPattern _) scheme.data
  have hcontains2 : containsSub [':', '/', '/'] (scheme ++ "://" ++ host).data = true := by
    rw [hd2]
    have : (scheme.data ++ [':']) ++ '/' :: ('/' :: host.data) =
        scheme.data ++ (':' :: '/' :: '/' :: host.data) := by
      simp
    rw [this]
    exact containsSub_of_prefix _ _ (isPrefixOf_sepPattern _) scheme.data
  have hsplit1 : splitOnSlash (scheme ++ "://" ++ host ++ "/" ++ rest).data =
      (scheme.data ++ [':']) :: [] :: host.data :: splitOnSlash rest.data := by
    rw [hd1, splitOnSlash_append _ _ hna]
    have h2 : splitOnSlash ('/' :: (host.data ++ '/' :: rest.data)) =
        [] :: splitOnSlash (host.data ++ '/' :: rest.data) := by
      simp [splitOnSlash]
    rw [h2, splitOnSlash_append _ _ hh]
  have hsplit2 : splitOnSlash (scheme ++ "://" ++ host).data =
      (scheme.data ++ [':']) :: [] :: [host.data] := by
    rw [hd2, splitOnSlash_append _ _ hna]
    have h2 : splitOnSlash ('/' :: host.data) = [] :: splitOnSlash host.data := by
      simp [splitOnSlash]
    rw [h2, splitOnSlash_no_sep _ hh]
  have hmain1 : getOriginURL (scheme ++ "://" ++ host ++ "/" ++ rest) = "https://" ++ host := by
    unfold getOriginURL
    rw [if_pos hne1, hcontains1, if_pos rfl, hsplit1]
    rfl
  have hmain2 : getOriginURL (scheme ++ "://" ++ host) = "https://" ++ host := by
    unfold getOriginURL
    rw [if_pos hne2, hcontains2, if_pos rfl, hsplit2]
    rfl
  refine ⟨hmain1, hmain2, ?_⟩
  unfold sendWebMessageTarget
  simp only [hne1, if_pos, if_true, ite_true]
  rw [if_pos hne1]
  rw [if_pos hne1, hmain1]

/-- C10 witness: an `http` referrer yields an `https` destination origin. -/
theorem origin_derivation_forces_https_witness :
    getOriginURL "http://host.example/app/path" = "https://host.example"
  ∧ getOriginURL "http://host.example" = "https://host.example"
  ∧ sendWebMessageTarget "http://host.example/app/path" none = some "https://host.example" := by
  have h := origin_derivation_forces_https "http" "host.example" "app/path"
    (by decide) (by decide)
  exact ⟨h.1, h.2.1, h.2.2⟩
